import Mathlib

/-!
Shallow embedding of the spherical-gravity locomotion core of the
Alien-three.js repository: the gravity/up-vector resolver
(`PhysicsWorld.applyGravity`), the character controller velocity/jump update
(`PlayerController.update`), the hover-vehicle suspension
(`Vehicle.update`), the orbit camera input clamping (`OrbitCamera.update`)
and the mount/dismount coordinator (`PlayerController.drive` /
`PlayerController.dismount`).  Machine floats are idealised as real numbers;
the external physics engine's raycasts are modelled as oracle parameters.
-/

noncomputable section

/-- Three-component vector over the reals, standing for both `CANNON.Vec3`
and `THREE.Vector3` (the two libraries share the componentwise operations;
they differ only in `normalize`, embedded separately below). -/
@[ext]
structure Vec3 where
  x : ℝ
  y : ℝ
  z : ℝ

instance : Zero Vec3 := ⟨⟨0, 0, 0⟩⟩

instance : Add Vec3 := ⟨fun a b => ⟨a.x + b.x, a.y + b.y, a.z + b.z⟩⟩

instance : Sub Vec3 := ⟨fun a b => ⟨a.x - b.x, a.y - b.y, a.z - b.z⟩⟩

instance : Neg Vec3 := ⟨fun a => ⟨-a.x, -a.y, -a.z⟩⟩

instance : SMul ℝ Vec3 := ⟨fun k a => ⟨k * a.x, k * a.y, k * a.z⟩⟩

@[simp] theorem Vec3.zero_x : (0 : Vec3).x = 0 := rfl

@[simp] theorem Vec3.zero_y : (0 : Vec3).y = 0 := rfl

@[simp] theorem Vec3.zero_z : (0 : Vec3).z = 0 := rfl

@[simp] theorem Vec3.add_x (a b : Vec3) : (a + b).x = a.x + b.x := rfl

@[simp] theorem Vec3.add_y (a b : Vec3) : (a + b).y = a.y + b.y := rfl

@[simp] theorem Vec3.add_z (a b : Vec3) : (a + b).z = a.z + b.z := rfl

@[simp] theorem Vec3.sub_x (a b : Vec3) : (a - b).x = a.x - b.x := rfl

@[simp] theorem Vec3.sub_y (a b : Vec3) : (a - b).y = a.y - b.y := rfl

@[simp] theorem Vec3.sub_z (a b : Vec3) : (a - b).z = a.z - b.z := rfl

@[simp] theorem Vec3.neg_x (a : Vec3) : (-a).x = -a.x := rfl

@[simp] theorem Vec3.neg_y (a : Vec3) : (-a).y = -a.y := rfl

@[simp] theorem Vec3.neg_z (a : Vec3) : (-a).z = -a.z := rfl

@[simp] theorem Vec3.smul_x (k : ℝ) (a : Vec3) : (k • a).x = k * a.x := rfl

@[simp] theorem Vec3.smul_y (k : ℝ) (a : Vec3) : (k • a).y = k * a.y := rfl

@[simp] theorem Vec3.smul_z (k : ℝ) (a : Vec3) : (k • a).z = k * a.z := rfl

/-- Dot product (`Vec3.dot` in cannon-es, `Vector3.dot` in three.js). -/
def dot (a b : Vec3) : ℝ := a.x * b.x + a.y * b.y + a.z * b.z

/-- Cross product (`Vector3.crossVectors` / `Vec3.cross`). -/
def cross (a b : Vec3) : Vec3 :=
  ⟨a.y * b.z - a.z * b.y, a.z * b.x - a.x * b.z, a.x * b.y - a.y * b.x⟩

/-- Squared length (`lengthSquared` / `lengthSq`). -/
def normSq (v : Vec3) : ℝ := dot v v

/-- Length (`length`), the square root of the squared length. -/
def len (v : Vec3) : ℝ := Real.sqrt (normSq v)

/-- The in-place `CANNON.Vec3.normalize`: divide by the length when it is
strictly positive, otherwise set the vector to zero. -/
def cannonNormalize (v : Vec3) : Vec3 :=
  if 0 < len v then (1 / len v) • v else 0

/-- The `THREE.Vector3.normalize`, which is `divideScalar(length() || 1)`:
a zero length falls back to dividing by one (leaving the zero vector as is). -/
def threeNormalize (v : Vec3) : Vec3 :=
  (1 / (if len v = 0 then 1 else len v)) • v

/-- The `THREE.Vector3.lerp(target, alpha)`: each component moves a fraction
`alpha` of the way toward the target. -/
def lerp (a b : Vec3) (t : ℝ) : Vec3 := a + t • (b - a)

theorem dot_comm (a b : Vec3) : dot a b = dot b a := by
  simp only [dot]; ring

@[simp] theorem dot_add_left (a b u : Vec3) : dot (a + b) u = dot a u + dot b u := by
  simp only [dot, Vec3.add_x, Vec3.add_y, Vec3.add_z]; ring

@[simp] theorem dot_sub_left (a b u : Vec3) : dot (a - b) u = dot a u - dot b u := by
  simp only [dot, Vec3.sub_x, Vec3.sub_y, Vec3.sub_z]; ring

@[simp] theorem dot_smul_left (k : ℝ) (a u : Vec3) : dot (k • a) u = k * dot a u := by
  simp only [dot, Vec3.smul_x, Vec3.smul_y, Vec3.smul_z]; ring

@[simp] theorem dot_neg_left (a u : Vec3) : dot (-a) u = -dot a u := by
  simp only [dot, Vec3.neg_x, Vec3.neg_y, Vec3.neg_z]; ring

@[simp] theorem dot_zero_left (u : Vec3) : dot 0 u = 0 := by
  simp [dot]

@[simp] theorem dot_cross_right (a u : Vec3) : dot (cross a u) u = 0 := by
  simp only [dot, cross]; ring

theorem dot_lerp_left (a b u : Vec3) (t : ℝ) :
    dot (lerp a b t) u = dot a u + t * (dot b u - dot a u) := by
  simp [lerp]

theorem normSq_nonneg (v : Vec3) : 0 ≤ normSq v := by
  have hx := mul_self_nonneg v.x
  have hy := mul_self_nonneg v.y
  have hz := mul_self_nonneg v.z
  simp only [normSq, dot]; linarith

theorem normSq_eq_zero_iff (v : Vec3) : normSq v = 0 ↔ v = 0 := by
  constructor
  · intro h
    have hx : v.x * v.x ≤ 0 := by
      have := sq_nonneg v.y; have := sq_nonneg v.z
      simp only [normSq, dot] at h; nlinarith
    have hy : v.y * v.y ≤ 0 := by
      have := sq_nonneg v.x; have := sq_nonneg v.z
      simp only [normSq, dot] at h; nlinarith
    have hz : v.z * v.z ≤ 0 := by
      have := sq_nonneg v.x; have := sq_nonneg v.y
      simp only [normSq, dot] at h; nlinarith
    have hx' : v.x = 0 := by nlinarith [mul_self_nonneg v.x]
    have hy' : v.y = 0 := by nlinarith [mul_self_nonneg v.y]
    have hz' : v.z = 0 := by nlinarith [mul_self_nonneg v.z]
    ext <;> simp [hx', hy', hz']
  · rintro rfl; simp [normSq, dot]

theorem normSq_pos_of_ne (v : Vec3) (h : v ≠ 0) : 0 < normSq v :=
  lt_of_le_of_ne (normSq_nonneg v) fun h0 => h ((normSq_eq_zero_iff v).1 h0.symm)

theorem len_pos_of_ne (v : Vec3) (h : v ≠ 0) : 0 < len v :=
  Real.sqrt_pos.2 (normSq_pos_of_ne v h)

theorem normSq_smul (k : ℝ) (v : Vec3) : normSq (k • v) = k ^ 2 * normSq v := by
  simp only [normSq, dot, Vec3.smul_x, Vec3.smul_y, Vec3.smul_z]; ring

theorem cannonNormalize_of_ne (v : Vec3) (h : v ≠ 0) :
    cannonNormalize v = (1 / len v) • v := by
  simp [cannonNormalize, len_pos_of_ne v h]

theorem normSq_cannonNormalize (v : Vec3) (h : v ≠ 0) :
    normSq (cannonNormalize v) = 1 := by
  rw [cannonNormalize_of_ne v h, normSq_smul]
  have hs : 0 < normSq v := normSq_pos_of_ne v h
  have hl : len v * len v = normSq v := Real.mul_self_sqrt hs.le
  have hlp : 0 < len v := len_pos_of_ne v h
  field_simp
  nlinarith [hl]

theorem threeNormalize_eq_smul (v : Vec3) :
    ∃ k : ℝ, threeNormalize v = k • v := ⟨_, rfl⟩

/-- A planet attractor as registered with `PhysicsWorld.addPlanet`: only its
(static) position takes part in `applyGravity`. -/
structure Planet where
  center : Vec3

/-- `body.position.vsub(planet.position).lengthSquared()` from the closest
planet scan in `PhysicsWorld.applyGravity`. -/
def distSq (pos : Vec3) (q : Planet) : ℝ := normSq (pos - q.center)

/-- The running-minimum loop body of `PhysicsWorld.applyGravity`: starting
from the current best candidate, replace it whenever a later planet has a
strictly smaller squared distance (`distSq < minDistanceSq`), so the first
minimal planet in iteration order is kept.  The source seeds
`minDistanceSq = Infinity`, which the first iteration always beats, hence
the accumulator starts at the head of the list here. -/
def closestGo (pos : Vec3) (best : Planet) : List Planet → Planet
  | [] => best
  | q :: rest =>
      if distSq pos q < distSq pos best then closestGo pos q rest
      else closestGo pos best rest

/-- Closest-planet selection of `PhysicsWorld.applyGravity`; `none` exactly
when the planet list is empty (the early `return` in the source). -/
def selectClosest (pos : Vec3) : List Planet → Option Planet
  | [] => none
  | q :: rest => some (closestGo pos q rest)

/-- `PhysicsWorld.applyGravity` (src/unnamed/part_002): returns the up
vector handed back to the caller (`none` models the bare `return`, i.e.
`undefined`, on an empty planet list) paired with the force applied to the
body (`direction.normalize(); force = direction.scale(9.82 * mass)`); the
zero vector in the empty case records that no `applyForce` call happens. -/
def applyGravity (planets : List Planet) (pos : Vec3) (mass : ℝ) :
    Option Vec3 × Vec3 :=
  match selectClosest pos planets with
  | none => (none, 0)
  | some q =>
      let direction := cannonNormalize (q.center - pos)
      (some (-(1 : ℝ) • direction), (9.82 * mass) • direction)

/-- The caller-side fallback `this.physicsWorld.applyGravity(body) || new
CANNON.Vec3(0, 1, 0)` (PlayerController.update and Vehicle.update): a
returned vector object is always truthy in JavaScript, so the fallback
fires only for `undefined`, i.e. the empty planet list. -/
def computeUp (planets : List Planet) (pos : Vec3) : Vec3 :=
  (applyGravity planets pos 0).1.getD ⟨0, 1, 0⟩

theorem closestGo_min (pos : Vec3) :
    ∀ (l : List Planet) (b : Planet),
      distSq pos (closestGo pos b l) ≤ distSq pos b ∧
      ∀ r ∈ l, distSq pos (closestGo pos b l) ≤ distSq pos r := by
  intro l
  induction l with
  | nil => intro b; exact ⟨le_refl _, by simp⟩
  | cons q rest ih =>
      intro b
      by_cases h : distSq pos q < distSq pos b
      · have hq := ih q
        refine ⟨by simpa [closestGo, h] using le_trans hq.1 h.le, ?_⟩
        intro r hr
        rcases List.mem_cons.1 hr with rfl | hr'
        · simpa [closestGo, h] using hq.1
        · simpa [closestGo, h] using hq.2 r hr'
      · have hb := ih b
        refine ⟨by simpa [closestGo, h] using hb.1, ?_⟩
        intro r hr
        rcases List.mem_cons.1 hr with rfl | hr'
        · have : distSq pos b ≤ distSq pos r := not_lt.1 h
          simpa [closestGo, h] using le_trans hb.1 this
        · simpa [closestGo, h] using hb.2 r hr'

theorem closestGo_first_min (pos : Vec3) :
    ∀ (l : List Planet) (b : Planet),
      ∃ l₁ l₂, b :: l = l₁ ++ closestGo pos b l :: l₂ ∧
        ∀ r ∈ l₁, distSq pos (closestGo pos b l) < distSq pos r := by
  intro l
  induction l with
  | nil => intro b; exact ⟨[], [], rfl, by simp⟩
  | cons q rest ih =>
      intro b
      by_cases h : distSq pos q < distSq pos b
      · obtain ⟨m₁, m₂, hdec, hstrict⟩ := ih q
        refine ⟨b :: m₁, m₂, ?_, ?_⟩
        · simpa [closestGo, h] using congrArg (List.cons b) hdec
        · intro r hr
          rcases List.mem_cons.1 hr with rfl | hr'
          · have hle : distSq pos (closestGo pos q rest) ≤ distSq pos q :=
              (closestGo_min pos rest q).1
          
            simpa [closestGo, h] using lt_of_le_of_lt hle h
          · simpa [closestGo, h] using hstrict r hr'
      · obtain ⟨m₁, m₂, hdec, hstrict⟩ := ih b
        match m₁, hdec with
        | [], hdec =>
            have hg : closestGo pos b rest = b :=
              (List.cons.inj hdec.symm).1
            refine ⟨[], q :: rest, ?_, by simp⟩
            simp [closestGo, h, hg]
        | b' :: m₁', hdec =>
            have hinj := List.cons.inj hdec
            have hb' : b' = b := hinj.1.symm
            have hrest : rest = m₁' ++ closestGo pos b rest :: m₂ := hinj.2
            refine ⟨b :: q :: m₁', m₂, ?_, ?_⟩
            · simp only [closestGo, h, if_false]
              exact congrArg (List.cons b) (congrArg (List.cons q) hrest)
            · intro r hr
              have hbmem : distSq pos (closestGo pos b rest) < distSq pos b := by
                apply hstrict
                rw [hb'] at hdec ⊢
                exact List.mem_cons_self b m₁'
              rcases List.mem_cons.1 hr with rfl | hr'
              · simpa [closestGo, h] using hbmem
              · rcases List.mem_cons.1 hr' with rfl | hr'' 
                · have hbq : distSq pos b ≤ distSq pos r := not_lt.1 h
                  simpa [closestGo, h] using lt_of_lt_of_le hbmem hbq
                · have : r ∈ b' :: m₁' := List.mem_cons_of_mem b' hr''
                  simpa [closestGo, h] using hstrict r this

theorem closestGo_mem (pos : Vec3) (l : List Planet) (b : Planet) :
    closestGo pos b l ∈ b :: l := by
  obtain ⟨l₁, l₂, hdec, _⟩ := closestGo_first_min pos l b
  rw [hdec]
  exact List.mem_append.2 (Or.inr (List.mem_cons_self _ _))

/-- Quaternion with the cannon-es / three.js component layout. -/
structure Quat where
  x : ℝ
  y : ℝ
  z : ℝ
  w : ℝ

/-- The cannon-es `Quaternion.vmult` vector rotation, transcribed from its
source (`q * v * q.conjugate` expanded componentwise). -/
def qvmult (q : Quat) (v : Vec3) : Vec3 :=
  let ix := q.w * v.x + q.y * v.z - q.z * v.y
  let iy := q.w * v.y + q.z * v.x - q.x * v.z
  let iz := q.w * v.z + q.x * v.y - q.y * v.x
  let iw := -q.x * v.x - q.y * v.y - q.z * v.z
  ⟨ix * q.w + iw * (-q.x) + iy * (-q.z) - iz * (-q.y),
   iy * q.w + iw * (-q.y) + iz * (-q.x) - ix * (-q.z),
   iz * q.w + iw * (-q.z) + ix * (-q.y) - iy * (-q.x)⟩

/-- The three.js `Vector3.applyQuaternion`, transcribed from its source
(`t = 2 q.xyz x v; v + q.w t + q.xyz x t`). -/
def applyQuaternion (v : Vec3) (q : Quat) : Vec3 :=
  let tx := 2 * (q.y * v.z - q.z * v.y)
  let ty := 2 * (q.z * v.x - q.x * v.z)
  let tz := 2 * (q.x * v.y - q.y * v.x)
  ⟨v.x + q.w * tx + q.y * tz - q.z * ty,
   v.y + q.w * ty + q.z * tx - q.x * tz,
   v.z + q.w * tz + q.x * ty - q.y * tx⟩

/-- Movement-key states consumed by `PlayerController.update`. -/
structure PInput where
  forward : Bool
  backward : Bool
  left : Bool
  right : Bool
  jump : Bool

/-- `PlayerController` speed and jump constants. -/
def humanSpeed : ℝ := 10

/-- Alien walking speed constant of `PlayerController`. -/
def alienSpeed : ℝ := 25

/-- Human jump speed constant of `PlayerController`. -/
def humanJump : ℝ := 5

/-- Alien jump speed constant of `PlayerController`. -/
def alienJump : ℝ := 12

/-- Camera-forward projection of `PlayerController.update`:
`camDir.clone().sub(upVec.clone().multiplyScalar(camDir.dot(upVec))).normalize()`.
There is no degenerate-length guard in the source: the three.js `normalize`
is applied unconditionally. -/
def projectForward (camDir up : Vec3) : Vec3 :=
  threeNormalize (camDir - dot camDir up • up)

/-- The `moveInput` accumulation of `PlayerController.update`: start from the
zero vector, add `forward`, subtract it, add `right`, subtract it according
to the four key flags, in source order. -/
def moveIntent (inp : PInput) (fwd rgt : Vec3) : Vec3 :=
  let m0 : Vec3 := 0
  let m1 := if inp.forward then m0 + fwd else m0
  let m2 := if inp.backward then m1 - fwd else m1
  let m3 := if inp.right then m2 + rgt else m2
  if inp.left then m3 - rgt else m3

/-- The velocity-control portion of `PlayerController.update` (decompose
into vertical and horizontal parts, blend the horizontal part toward the
input target with fixed factor 0.2, recombine).  `planets` feed the
up-vector resolution exactly as `applyGravity` does in the source. -/
def playerMoveVel (planets : List Planet) (camDir : Vec3) (inp : PInput)
    (isAlien : Bool) (pos vel : Vec3) : Vec3 :=
  let speed := if isAlien then alienSpeed else humanSpeed
  let up := computeUp planets pos
  let forward := projectForward camDir up
  let right := threeNormalize (cross forward up)
  let moveInput := moveIntent inp forward right
  let vertVelVal := dot vel up
  let vertVel := vertVelVal • up
  let horizVel := vel - vertVel
  let targetHorizVel :=
    if 0 < normSq moveInput then speed • threeNormalize moveInput else 0
  let horizVel2 := lerp horizVel targetHorizVel 0.2
  horizVel2 + vertVel

/-- One full velocity step of `PlayerController.update` in Grounded mode:
the velocity control above, then the jump block.  The engine raycast
`world.raycastClosest(rayStart, rayEnd, ...)` is an oracle parameter
`probe`; the source calls it with the body position and the point 1.5 units
along `-up`.  On a reported hit the up-aligned component captured before
the blend is removed and the jump speed is added along `up`. -/
def playerStep (planets : List Planet) (camDir : Vec3) (inp : PInput)
    (isAlien : Bool) (probe : Vec3 → Vec3 → Bool) (pos vel : Vec3) : Vec3 :=
  let up := computeUp planets pos
  let vertVel := dot vel up • up
  let newVel := playerMoveVel planets camDir inp isAlien pos vel
  if inp.jump then
    if probe pos (pos - (1.5 : ℝ) • up) then
      let jumpForce := if isAlien then alienJump else humanJump
      newVel - vertVel + jumpForce • up
    else newVel
  else newVel

/-- Vehicle forward/turn/suspension constants (`Vehicle` in
src/src/entities/Planet.ts, the hover variant cited by the spec). -/
def vehicleSpeed : ℝ := 100

/-- Vehicle turn speed constant. -/
def turnSpeed : ℝ := 1.5

/-- Target hover distance from the ground. -/
def hoverHeight : ℝ := 1.5

/-- Suspension spring stiffness. -/
def stiffness : ℝ := 150

/-- Suspension damping coefficient. -/
def damping : ℝ := 10

/-- The four fixed chassis-local suspension points. -/
def suspensionPoints : List Vec3 :=
  [⟨1.2, -0.6, 2⟩, ⟨-1.2, -0.6, 2⟩, ⟨1.2, -0.6, -2⟩, ⟨-1.2, -0.6, -2⟩]

/-- Chassis rigid-body state of the vehicle used by `Vehicle.update`. -/
structure Chassis where
  position : Vec3
  velocity : Vec3
  angularVelocity : Vec3
  quat : Quat
  mass : ℝ

/-- The cannon-es `Body.pointToWorldFrame`: rotate the local point by the
body quaternion and add the body position. -/
def pointToWorldFrame (ch : Chassis) (p : Vec3) : Vec3 :=
  qvmult ch.quat p + ch.position

/-- An engine raycast oracle: given the segment start and end, optionally
the id of the closest hit body and the hit distance (`result.body`,
`result.distance` of `World.raycastClosest`). -/
def RayOracle : Type := Vec3 → Vec3 → Option (ℕ × ℝ)

/-- One iteration of the suspension loop in `Vehicle.update`: transform the
local point to world space, cast along `-up` over `hoverHeight + 1`, and if
a body other than the chassis (`selfId`) is hit within `hoverHeight`,
compute the spring-damper magnitude and, only when it is strictly positive,
yield the force `forceMag • up` applied at the world point. -/
def suspensionForceAt (up : Vec3) (ray : RayOracle) (selfId : ℕ)
    (ch : Chassis) (point : Vec3) : Option (Vec3 × Vec3) :=
  let worldPoint := pointToWorldFrame ch point
  let down := (-1 : ℝ) • up
  let rayEnd := worldPoint + (hoverHeight + 1) • down
  match ray worldPoint rayEnd with
  | none => none
  | some (bid, distance) =>
      if bid = selfId then none
      else if distance < hoverHeight then
        let offset := hoverHeight - distance
        let r := worldPoint - ch.position
        let velAtPoint := ch.velocity + cross ch.angularVelocity r
        let velProj := dot velAtPoint up
        let forceMag := stiffness * offset - damping * velProj
        if 0 < forceMag then some (forceMag • up, worldPoint) else none
      else none

/-- Drive-key states consumed by `Vehicle.update` via the `InputManager`. -/
structure VInput where
  forward : Bool
  backward : Bool
  left : Bool
  right : Bool

/-- The force and torque applications of one `Vehicle.update` step, grouped
by the source block that issues them: the gravity force from
`applyGravity`, the suspension `applyForce` calls (force, world point), the
stabilization `applyTorque`, and the drive `applyForce` / turn
`applyTorque` calls. -/
structure VehicleOut where
  up : Vec3
  gravity : Vec3
  susp : List (Vec3 × Vec3)
  upright : Option Vec3
  drive : List (Vec3 × Vec3)
  turn : List Vec3

/-- `Vehicle.update` of src/src/entities/Planet.ts: gravity and up vector,
four suspension raycasts, uprighting torque when the alignment cosine drops
below 0.9, and — only when `isOccupied` and an input manager was passed —
the asymmetric forward/back thrust along the chassis local `-z` axis and
the turning torques about `up`. -/
def vehicleUpdate (planets : List Planet) (ray : RayOracle) (selfId : ℕ)
    (ch : Chassis) (isOccupied : Bool) (input : Option VInput) : VehicleOut :=
  let up := computeUp planets ch.position
  let gravity := (applyGravity planets ch.position ch.mass).2
  let susp := suspensionPoints.filterMap (suspensionForceAt up ray selfId ch)
  let bodyUp := qvmult ch.quat ⟨0, 1, 0⟩
  let alignment := dot bodyUp up
  let upright :=
    if alignment < 0.9 then some ((500 * (1 - alignment)) • cross bodyUp up)
    else none
  match isOccupied, input with
  | true, some inp =>
      let fwd := qvmult ch.quat ⟨0, 0, -1⟩
      let drive :=
        (if inp.forward then [((vehicleSpeed * 10) • fwd, ch.position)] else []) ++
        (if inp.backward then [((-(vehicleSpeed * 5)) • fwd, ch.position)] else [])
      let turn :=
        (if inp.left then [(turnSpeed * 400) • up] else []) ++
        (if inp.right then [(-(turnSpeed * 400)) • up] else [])
      ⟨up, gravity, susp, upright, drive, turn⟩
  | _, _ => ⟨up, gravity, susp, upright, [], []⟩

/-- Orbit camera state (`OrbitCamera` fields). -/
structure CamState where
  currentDistance : ℝ
  targetDistance : ℝ
  currentTheta : ℝ
  currentPhi : ℝ

/-- Per-update camera input: the accumulated mouse delta, the pointer-lock
flag and the frame delta time. -/
structure CamInput where
  dx : ℝ
  dy : ℝ
  isLocked : Bool
  dt : ℝ

/-- Mouse sensitivity constant of `OrbitCamera`. -/
def sensitivity : ℝ := 0.002

/-- Lower clamp of the polar angle (`minPhi`). -/
def minPhi : ℝ := 0.1

/-- Upper clamp of the polar angle (`maxPhi`). -/
def maxPhi : ℝ := Real.pi / 2 - 0.1

/-- Initial `OrbitCamera` state per its field initializers. -/
def camInit : CamState :=
  ⟨10, 10, 0, Real.pi / 3⟩

/-- The state-transition part of `OrbitCamera.update`: while pointer lock is
active, theta moves by the mouse x delta (unclamped) and phi by the mouse y
delta followed by `Math.max(minPhi, Math.min(maxPhi, phi))`; the zoom
distance is lerped toward the target at rate `5 * dt`. -/
def camUpdate (s : CamState) (i : CamInput) : CamState :=
  let theta :=
    if i.isLocked then s.currentTheta - i.dx * sensitivity else s.currentTheta
  let phi :=
    if i.isLocked then
      max minPhi (min maxPhi (s.currentPhi + i.dy * sensitivity))
    else s.currentPhi
  let dist := s.currentDistance + (s.targetDistance - s.currentDistance) * 5 * i.dt
  ⟨dist, s.targetDistance, theta, phi⟩

/-- The cannon-es `World.removeBody` on the body registry: delete the body
(one occurrence, found by index) if present. -/
def removeBody (l : List ℕ) (b : ℕ) : List ℕ := l.erase b

/-- The cannon-es `World.addBody` on the body registry: a body already in
the registry is not added twice. -/
def addBody (l : List ℕ) (b : ℕ) : List ℕ := if b ∈ l then l else l ++ [b]

/-- The mount/dismount coordinator state carried by `PlayerController`
together with the single vehicle of the scene: whether a vehicle is
currently mounted (`currentVehicle !== null`), the vehicle occupancy flag,
the vehicle visual pose read at dismount, the character body state, and the
physics-world body registry. -/
structure CoordState where
  mounted : Bool
  vehOccupied : Bool
  vehPos : Vec3
  vehQuat : Quat
  bodyPos : Vec3
  bodyVel : Vec3
  bodies : List ℕ

/-- `PlayerController.drive`: record the vehicle as current, mark it
occupied and remove the character body (`pid`) from the physics world. -/
def drive (pid : ℕ) (s : CoordState) : CoordState :=
  { s with mounted := true, vehOccupied := true,
           bodies := removeBody s.bodies pid }

/-- `PlayerController.dismount`: a no-op without a current vehicle;
otherwise clear the occupancy, place the character body at the vehicle
position plus the seat offset `(2,0,0)` rotated by the vehicle quaternion,
zero its velocity, re-add it to the physics world and clear the current
vehicle. -/
def dismount (pid : ℕ) (s : CoordState) : CoordState :=
  if s.mounted = false then s
  else
    let seatOffset := applyQuaternion ⟨2, 0, 0⟩ s.vehQuat
    let dismountPos := s.vehPos + seatOffset
    { s with mounted := false, vehOccupied := false,
             bodyPos := dismountPos, bodyVel := 0,
             bodies := addBody s.bodies pid }

theorem smul_smul_vec (k m : ℝ) (v : Vec3) : k • (m • v) = (k * m) • v := by
  ext <;> simp <;> ring

theorem lerp_zero_zero (t : ℝ) : lerp 0 0 t = 0 := by
  ext <;> simp [lerp]

theorem zero_add_vec (v : Vec3) : (0 : Vec3) + v = v := by
  ext <;> simp

theorem sub_eq_zero_iff_vec (a b : Vec3) : a - b = 0 ↔ a = b := by
  constructor
  · intro h
    have hx := congrArg Vec3.x h
    have hy := congrArg Vec3.y h
    have hz := congrArg Vec3.z h
    simp at hx hy hz
    ext <;> linarith
  · rintro rfl; ext <;> simp

theorem threeNormalize_zero : threeNormalize 0 = 0 := by
  ext <;> simp [threeNormalize]

@[simp] theorem cross_zero_left (u : Vec3) : cross 0 u = 0 := by
  ext <;> simp [cross]

theorem dot_threeNormalize_zero (v u : Vec3) (h : dot v u = 0) :
    dot (threeNormalize v) u = 0 := by
  obtain ⟨k, hk⟩ := threeNormalize_eq_smul v
  rw [hk, dot_smul_left, h, mul_zero]

/-- C6: with an empty attractor set `PhysicsWorld.applyGravity` returns
early — no force is applied to the body and no up vector is produced — and
the consuming controllers (`PlayerController.update`, `Vehicle.update`)
fall back to the canonical vertical `(0, 1, 0)` via the `|| new
CANNON.Vec3(0, 1, 0)` default, treating the condition as degraded rather
than erroneous. -/
theorem applyGravity_empty_fallback (pos : Vec3) (mass : ℝ) :
    applyGravity [] pos mass = (none, 0) ∧ computeUp [] pos = ⟨0, 1, 0⟩ :=
  ⟨rfl, rfl⟩

/-- C10: `PlayerController.dismount` with no current vehicle returns
immediately, leaving the coordinator state — body position and velocity,
body registry and vehicle occupancy — untouched. -/
theorem dismount_unmounted_noop (pid : ℕ) (s : CoordState)
    (h : s.mounted = false) : dismount pid s = s := by
  simp [dismount, h]

/-- Witness for C10 at a concrete unmounted state. -/
theorem dismount_unmounted_noop_witness :
    (⟨false, false, 0, ⟨0, 0, 0, 1⟩, 0, 0, [0]⟩ : CoordState).mounted = false ∧
    dismount 3 (⟨false, false, 0, ⟨0, 0, 0, 1⟩, 0, 0, [0]⟩ : CoordState) =
      (⟨false, false, 0, ⟨0, 0, 0, 1⟩, 0, 0, [0]⟩ : CoordState) :=
  ⟨rfl, dismount_unmounted_noop 3 _ rfl⟩

theorem minPhi_le_maxPhi : minPhi ≤ maxPhi := by
  have h := Real.pi_gt_three
  simp only [minPhi, maxPhi]
  linarith

theorem camUpdate_phi_range (s : CamState) (i : CamInput)
    (h1 : minPhi ≤ s.currentPhi) (h2 : s.currentPhi ≤ maxPhi) :
    minPhi ≤ (camUpdate s i).currentPhi ∧
    (camUpdate s i).currentPhi ≤ maxPhi := by
  simp only [camUpdate]
  by_cases hl : i.isLocked
  · simp only [hl, if_true]
    exact ⟨le_max_left _ _, max_le minPhi_le_maxPhi (min_le_left _ _)⟩
  · simp only [hl, if_false]
    exact ⟨h1, h2⟩

theorem camFold_phi_range (inputs : List CamInput) :
    ∀ s : CamState, minPhi ≤ s.currentPhi → s.currentPhi ≤ maxPhi →
      minPhi ≤ (inputs.foldl camUpdate s).currentPhi ∧
      (inputs.foldl camUpdate s).currentPhi ≤ maxPhi := by
  induction inputs with
  | nil => intro s h1 h2; exact ⟨h1, h2⟩
  | cons i rest ih =>
      intro s h1 h2
      have h := camUpdate_phi_range s i h1 h2
      exact ih (camUpdate s i) h.1 h.2

/-- C8: starting from the in-range initial polar angle `pi / 3`, the
`OrbitCamera.update` clamp keeps `phi` within `[minPhi, maxPhi]` after every
update of any input sequence, while `theta` is updated without any clamp
and can be driven past any bound by a single mouse delta. -/
theorem orbitCamera_phi_clamped :
    (∀ inputs : List CamInput,
        minPhi ≤ (inputs.foldl camUpdate camInit).currentPhi ∧
        (inputs.foldl camUpdate camInit).currentPhi ≤ maxPhi) ∧
    (∀ (s : CamState) (i : CamInput),
        (camUpdate s i).currentTheta =
          if i.isLocked then s.currentTheta - i.dx * sensitivity
          else s.currentTheta) ∧
    (∀ M : ℝ, ∃ i : CamInput, M < (camUpdate camInit i).currentTheta) := by
  have hpi := Real.pi_gt_three
  refine ⟨?_, fun s i => rfl, ?_⟩
  · intro inputs
    apply camFold_phi_range
    · simp only [camInit, minPhi]; linarith
    · simp only [camInit, maxPhi]; linarith
  · intro M
    refine ⟨⟨-500 * (M + 1), 0, true, 0⟩, ?_⟩
    simp only [camUpdate, camInit, sensitivity, if_true]
    norm_num
    ring_nf
    linarith

/-- C7 counterexample: with the camera direction exactly parallel to `up`
(looking straight up), the tangent projection in `PlayerController.update`
is the zero vector and the unconditional three.js `normalize` leaves it
zero — the computed `forward` is the zero vector, not a reused previous
forward (the controller stores no previous forward at all). -/
theorem forward_degenerate_counterexample :
    projectForward ⟨0, 1, 0⟩ ⟨0, 1, 0⟩ = 0 ∧
    normSq (projectForward ⟨0, 1, 0⟩ ⟨0, 1, 0⟩) = 0 := by
  have hinner : (⟨0, 1, 0⟩ : Vec3) - dot ⟨0, 1, 0⟩ ⟨0, 1, 0⟩ • ⟨0, 1, 0⟩ = 0 := by
    ext <;> simp [dot]
  have : projectForward ⟨0, 1, 0⟩ ⟨0, 1, 0⟩ = 0 := by
    rw [projectForward, hinner, threeNormalize_zero]
  refine ⟨this, ?_⟩
  rw [this]
  simp [normSq, dot]

/-- C7 amended: the controller does not guard the degenerate projection.
Whenever the camera direction is a scalar multiple of the (unit) up vector,
the computed `forward` is exactly the zero vector (three.js `normalize`
maps a zero-length vector to itself), and the derived `right` is zero as
well; no previous-frame fallback exists in the code. -/
theorem forward_degenerate_amended (camDir up : Vec3) (k : ℝ)
    (hu : normSq up = 1) (hpar : camDir = k • up) :
    projectForward camDir up = 0 ∧
    threeNormalize (cross (projectForward camDir up) up) = 0 := by
  have hu' : dot up up = 1 := hu
  have hinner : camDir - dot camDir up • up = 0 := by
    subst hpar
    rw [dot_smul_left, hu', mul_one]
    ext <;> simp
  have hfwd : projectForward camDir up = 0 := by
    rw [projectForward, hinner, threeNormalize_zero]
  exact ⟨hfwd, by rw [hfwd, cross_zero_left, threeNormalize_zero]⟩

/-- Witness for C7's amended statement at a concrete camera direction. -/
theorem forward_degenerate_amended_witness :
    normSq (⟨0, 1, 0⟩ : Vec3) = 1 ∧
    (⟨0, 2, 0⟩ : Vec3) = (2 : ℝ) • ⟨0, 1, 0⟩ ∧
    projectForward ⟨0, 2, 0⟩ ⟨0, 1, 0⟩ = 0 ∧
    threeNormalize (cross (projectForward ⟨0, 2, 0⟩ ⟨0, 1, 0⟩) ⟨0, 1, 0⟩) = 0 := by
  have h1 : normSq (⟨0, 1, 0⟩ : Vec3) = 1 := by simp [normSq, dot]
  have h2 : (⟨0, 2, 0⟩ : Vec3) = (2 : ℝ) • ⟨0, 1, 0⟩ := by ext <;> simp
  have h := forward_degenerate_amended ⟨0, 2, 0⟩ ⟨0, 1, 0⟩ 2 h1 h2
  exact ⟨h1, h2, h.1, h.2⟩


theorem vec_sub_ne_zero (a b : Vec3) (h : a ≠ b) : b - a ≠ 0 := by
  intro h0
  exact h ((sub_eq_zero_iff_vec b a).1 h0).symm

/-- C1 (amended): for a non-empty attractor list, `PhysicsWorld.applyGravity`
selects the planet with minimum squared distance — the first minimal one in
iteration order — and, provided the body position differs from the selected
center and the mass is positive, applies the force
`(9.82 * mass) • normalize(center - pos)` (a positive multiple of the
body-to-center direction with squared magnitude `(9.82 * mass)^2`,
independent of altitude) and returns the up vector `-normalize(center -
pos)`, which is unit-length and a negative multiple of the body-to-center
direction. -/
theorem gravity_resolve_amended (l : List Planet) (pos : Vec3) (mass : ℝ)
    (q : Planet) (hq : selectClosest pos l = some q)
    (hne : pos ≠ q.center) (hm : 0 < mass) :
    q ∈ l ∧
    (∀ r ∈ l, distSq pos q ≤ distSq pos r) ∧
    (∃ l₁ l₂, l = l₁ ++ q :: l₂ ∧ ∀ r ∈ l₁, distSq pos q < distSq pos r) ∧
    (applyGravity l pos mass).2 =
      (9.82 * mass) • cannonNormalize (q.center - pos) ∧
    normSq (applyGravity l pos mass).2 = (9.82 * mass) ^ 2 ∧
    (∃ k : ℝ, 0 < k ∧ (applyGravity l pos mass).2 = k • (q.center - pos)) ∧
    (applyGravity l pos mass).1 =
      some ((-1 : ℝ) • cannonNormalize (q.center - pos)) ∧
    normSq ((-1 : ℝ) • cannonNormalize (q.center - pos)) = 1 ∧
    (∃ k : ℝ, k < 0 ∧
      (applyGravity l pos mass).1 = some (k • (q.center - pos))) := by
  cases l with
  | nil => simp [selectClosest] at hq
  | cons q0 rest =>
      have hqval : closestGo pos q0 rest = q := by
        simpa [selectClosest] using hq
      subst hqval
      have hvne : (closestGo pos q0 rest).center - pos ≠ 0 :=
        vec_sub_ne_zero pos (closestGo pos q0 rest).center hne
      have hlen : 0 < len ((closestGo pos q0 rest).center - pos) :=
        len_pos_of_ne _ hvne
      have hnorm :
          normSq (cannonNormalize ((closestGo pos q0 rest).center - pos)) = 1 :=
        normSq_cannonNormalize _ hvne
      have happ : applyGravity (q0 :: rest) pos mass =
          (some ((-1 : ℝ) •
             cannonNormalize ((closestGo pos q0 rest).center - pos)),
           (9.82 * mass) •
             cannonNormalize ((closestGo pos q0 rest).center - pos)) := by
        simp [applyGravity, selectClosest]
      have happ2 : (applyGravity (q0 :: rest) pos mass).2 =
          (9.82 * mass) •
            cannonNormalize ((closestGo pos q0 rest).center - pos) := by
        rw [happ]
      have happ1 : (applyGravity (q0 :: rest) pos mass).1 =
          some ((-1 : ℝ) •
            cannonNormalize ((closestGo pos q0 rest).center - pos)) := by
        rw [happ]
      refine ⟨closestGo_mem pos rest q0, ?_, closestGo_first_min pos rest q0,
        happ2, ?_, ?_, happ1, ?_, ?_⟩
      · intro r hr
        rcases List.mem_cons.1 hr with hreq | hr'
        · rw [hreq]; exact (closestGo_min pos rest q0).1
        · exact (closestGo_min pos rest q0).2 r hr'
      · rw [happ2, normSq_smul, hnorm, mul_one, sq]
      · refine ⟨9.82 * mass *
          (1 / len ((closestGo pos q0 rest).center - pos)), ?_, ?_⟩
        · have h982 : (0 : ℝ) < 9.82 := by norm_num
          exact mul_pos (mul_pos h982 hm) (by positivity)
        · rw [happ2, cannonNormalize_of_ne _ hvne, smul_smul_vec]
      · rw [normSq_smul, hnorm]; norm_num
      · refine ⟨(-1) *
          (1 / len ((closestGo pos q0 rest).center - pos)), ?_, ?_⟩
        · have hp : (0 : ℝ) <
              1 / len ((closestGo pos q0 rest).center - pos) := by positivity
          linarith
        · rw [happ1, cannonNormalize_of_ne _ hvne, smul_smul_vec]

/-- C1 counterexample: a body located exactly at the center of the (unique,
hence nearest) attractor.  The cannon-es `normalize` of the zero direction
yields the zero vector, so the applied force is the zero vector — its
magnitude is `0`, not `9.82 * mass` — and the returned up vector is the
zero vector, which is not unit-length. -/
theorem gravity_resolve_counterexample :
    (applyGravity [⟨⟨0, 0, 0⟩⟩] ⟨0, 0, 0⟩ 5).2 = 0 ∧
    (applyGravity [⟨⟨0, 0, 0⟩⟩] ⟨0, 0, 0⟩ 5).1 = some 0 ∧
    normSq (0 : Vec3) = 0 ∧ (0 : ℝ) ≠ 1 ∧ (0 : ℝ) ≠ (9.82 : ℝ) * 5 := by
  have hdir : (Planet.center ⟨⟨0, 0, 0⟩⟩ - ⟨0, 0, 0⟩ : Vec3) = 0 := by
    ext <;> simp [Planet.center]
  have hlen : len (0 : Vec3) = 0 := by
    simp [len, normSq, dot]
  have hcn : cannonNormalize (0 : Vec3) = 0 := by
    rw [cannonNormalize, hlen]
    simp
  have happ : applyGravity [⟨⟨0, 0, 0⟩⟩] ⟨0, 0, 0⟩ 5 =
      (some ((-1 : ℝ) •
         cannonNormalize (Planet.center ⟨⟨0, 0, 0⟩⟩ - ⟨0, 0, 0⟩)),
       ((9.82 : ℝ) * 5) •
         cannonNormalize (Planet.center ⟨⟨0, 0, 0⟩⟩ - ⟨0, 0, 0⟩)) := by
    simp [applyGravity, selectClosest, closestGo]
  rw [happ, hdir, hcn]
  refine ⟨by ext <;> simp, ?_, by simp [normSq, dot], by norm_num, by norm_num⟩
  have hneg : ((-1 : ℝ) • (0 : Vec3)) = 0 := by ext <;> simp
  rw [hneg]

/-- Witness for C1's amended statement: one attractor at the origin and a
body at `(0, 5, 0)` with mass `5`. -/
theorem gravity_resolve_amended_witness :
    selectClosest ⟨0, 5, 0⟩ [⟨⟨0, 0, 0⟩⟩] = some ⟨⟨0, 0, 0⟩⟩ ∧
    (⟨0, 5, 0⟩ : Vec3) ≠ Planet.center ⟨⟨0, 0, 0⟩⟩ ∧
    (0 : ℝ) < 5 ∧
    ((⟨⟨0, 0, 0⟩⟩ : Planet) ∈ [(⟨⟨0, 0, 0⟩⟩ : Planet)] ∧
     (∀ r ∈ [(⟨⟨0, 0, 0⟩⟩ : Planet)],
        distSq ⟨0, 5, 0⟩ ⟨⟨0, 0, 0⟩⟩ ≤ distSq ⟨0, 5, 0⟩ r) ∧
     (∃ l₁ l₂, [(⟨⟨0, 0, 0⟩⟩ : Planet)] = l₁ ++ ⟨⟨0, 0, 0⟩⟩ :: l₂ ∧
        ∀ r ∈ l₁, distSq ⟨0, 5, 0⟩ ⟨⟨0, 0, 0⟩⟩ < distSq ⟨0, 5, 0⟩ r) ∧
     (applyGravity [⟨⟨0, 0, 0⟩⟩] ⟨0, 5, 0⟩ 5).2 =
       ((9.82 : ℝ) * 5) •
         cannonNormalize (Planet.center ⟨⟨0, 0, 0⟩⟩ - ⟨0, 5, 0⟩) ∧
     normSq (applyGravity [⟨⟨0, 0, 0⟩⟩] ⟨0, 5, 0⟩ 5).2 = ((9.82 : ℝ) * 5) ^ 2 ∧
     (∃ k : ℝ, 0 < k ∧ (applyGravity [⟨⟨0, 0, 0⟩⟩] ⟨0, 5, 0⟩ 5).2 =
        k • (Planet.center ⟨⟨0, 0, 0⟩⟩ - ⟨0, 5, 0⟩)) ∧
     (applyGravity [⟨⟨0, 0, 0⟩⟩] ⟨0, 5, 0⟩ 5).1 =
       some ((-1 : ℝ) •
         cannonNormalize (Planet.center ⟨⟨0, 0, 0⟩⟩ - ⟨0, 5, 0⟩)) ∧
     normSq ((-1 : ℝ) •
       cannonNormalize (Planet.center ⟨⟨0, 0, 0⟩⟩ - ⟨0, 5, 0⟩)) = 1 ∧
     (∃ k : ℝ, k < 0 ∧ (applyGravity [⟨⟨0, 0, 0⟩⟩] ⟨0, 5, 0⟩ 5).1 =
        some (k • (Planet.center ⟨⟨0, 0, 0⟩⟩ - ⟨0, 5, 0⟩)))) := by
  have hne : (⟨0, 5, 0⟩ : Vec3) ≠ Planet.center ⟨⟨0, 0, 0⟩⟩ := by
    intro h
    have := congrArg Vec3.y h
    simp [Planet.center] at this
  exact ⟨rfl, hne, by norm_num,
    gravity_resolve_amended [⟨⟨0, 0, 0⟩⟩] ⟨0, 5, 0⟩ 5 ⟨⟨0, 0, 0⟩⟩ rfl hne
      (by norm_num)⟩

/-- C3: for a suspension point whose ray reports a hit on another body at
distance `d` while the chassis has zero linear and angular velocity, the
spring applies no force at `d = hoverHeight` (equilibrium), applies exactly
`stiffness * (hoverHeight - d)` along `+up` (strictly positive) when
`d < hoverHeight`, and applies nothing when `d > hoverHeight`; moreover in
every state a force is only ever emitted as a strictly positive multiple of
`up` — the spring pushes, never pulls. -/
theorem suspension_spring (up : Vec3) (ray : RayOracle) (selfId : ℕ)
    (ch : Chassis) (point : Vec3) (bid : ℕ) (d : ℝ)
    (hv : ch.velocity = 0) (hw : ch.angularVelocity = 0)
    (hray : ray (pointToWorldFrame ch point)
        (pointToWorldFrame ch point + (hoverHeight + 1) • ((-1 : ℝ) • up))
        = some (bid, d))
    (hbid : bid ≠ selfId) :
    (d = hoverHeight → suspensionForceAt up ray selfId ch point = none) ∧
    (d < hoverHeight →
      suspensionForceAt up ray selfId ch point =
        some ((stiffness * (hoverHeight - d)) • up,
              pointToWorldFrame ch point) ∧
      0 < stiffness * (hoverHeight - d)) ∧
    (hoverHeight < d → suspensionForceAt up ray selfId ch point = none) ∧
    (∀ (ch2 : Chassis) (pt f p : _),
       suspensionForceAt up ray selfId ch2 pt = some (f, p) →
       ∃ m : ℝ, 0 < m ∧ f = m • up) := by
  refine ⟨?_, ?_, ?_, ?_⟩
  · intro hd
    subst hd
    simp [suspensionForceAt, hray, hbid, lt_irrefl]
  · intro hd
    have hpos : 0 < stiffness * (hoverHeight - d) := by
      have h1 : 0 < hoverHeight - d := by linarith
      have h2 : (0 : ℝ) < stiffness := by norm_num [stiffness]
      positivity
    constructor
    · simp [suspensionForceAt, hray, hbid, hd, hv, hw, hpos]
    · exact hpos
  · intro hd
    have hnd : ¬ d < hoverHeight := not_lt.2 hd.le
    simp [suspensionForceAt, hray, hbid, hnd]
  · intro ch2 pt f p h
    simp only [suspensionForceAt] at h
    rcases hr2 : ray (pointToWorldFrame ch2 pt)
        (pointToWorldFrame ch2 pt + (hoverHeight + 1) • ((-1 : ℝ) • up)) with
      _ | ⟨bid2, d2⟩
    · rw [hr2] at h; simp at h
    · rw [hr2] at h
      by_cases hb2 : bid2 = selfId
      · simp [hb2] at h
      · by_cases hd2 : d2 < hoverHeight
        · simp only [hb2, hd2, if_true, if_false, if_neg, ite_true] at h
          set fm := stiffness * (hoverHeight - d2) -
            damping * dot (ch2.velocity + cross ch2.angularVelocity
              (pointToWorldFrame ch2 pt - ch2.position)) up with hfm
          by_cases hf : 0 < fm
          · rw [if_pos hf] at h
            refine ⟨fm, hf, ?_⟩
            have := Prod.mk.inj (Option.some.inj h)
            exact this.1.symm
          · rw [if_neg hf] at h; exact absurd h (by simp)
        · simp [hb2, hd2] at h

/-- Witness for C3 at a concrete chassis at rest with a hit at distance 1
(closer than the 1.5 hover height) reported by the ray oracle. -/
theorem suspension_spring_witness :
    (⟨0, 0, 0, ⟨0, 0, 0, 1⟩, 150⟩ : Chassis).velocity = 0 ∧
    (⟨0, 0, 0, ⟨0, 0, 0, 1⟩, 150⟩ : Chassis).angularVelocity = 0 ∧
    (fun (_ _ : Vec3) => some ((7 : ℕ), (1 : ℝ)))
      (pointToWorldFrame ⟨0, 0, 0, ⟨0, 0, 0, 1⟩, 150⟩ ⟨1.2, -0.6, 2⟩)
      (pointToWorldFrame ⟨0, 0, 0, ⟨0, 0, 0, 1⟩, 150⟩ ⟨1.2, -0.6, 2⟩ +
        (hoverHeight + 1) • ((-1 : ℝ) • ⟨0, 1, 0⟩)) = some (7, 1) ∧
    (7 : ℕ) ≠ 0 ∧
    ((1 : ℝ) = hoverHeight →
      suspensionForceAt ⟨0, 1, 0⟩ (fun _ _ => some (7, 1)) 0
        ⟨0, 0, 0, ⟨0, 0, 0, 1⟩, 150⟩ ⟨1.2, -0.6, 2⟩ = none) ∧
    ((1 : ℝ) < hoverHeight →
      suspensionForceAt ⟨0, 1, 0⟩ (fun _ _ => some (7, 1)) 0
        ⟨0, 0, 0, ⟨0, 0, 0, 1⟩, 150⟩ ⟨1.2, -0.6, 2⟩ =
        some ((stiffness * (hoverHeight - 1)) • ⟨0, 1, 0⟩,
          pointToWorldFrame ⟨0, 0, 0, ⟨0, 0, 0, 1⟩, 150⟩ ⟨1.2, -0.6, 2⟩) ∧
      0 < stiffness * (hoverHeight - 1)) ∧
    (hoverHeight < (1 : ℝ) →
      suspensionForceAt ⟨0, 1, 0⟩ (fun _ _ => some (7, 1)) 0
        ⟨0, 0, 0, ⟨0, 0, 0, 1⟩, 150⟩ ⟨1.2, -0.6, 2⟩ = none) := by
  have h := suspension_spring ⟨0, 1, 0⟩ (fun _ _ => some (7, 1)) 0
    ⟨0, 0, 0, ⟨0, 0, 0, 1⟩, 150⟩ ⟨1.2, -0.6, 2⟩ 7 1 rfl rfl rfl
    (by norm_num)
  exact ⟨rfl, rfl, rfl, by norm_num, h.1, h.2.1, h.2.2.1⟩

/-- C5: in every `Vehicle.update` step the suspension forces, the
uprighting torque, the resolved up vector and the gravity force are
identical whatever the occupancy flag and input argument are (an unmanned
vehicle still hovers and self-levels), while the drive forces and turning
torques are empty unless the vehicle is occupied and an input manager was
supplied. -/
theorem vehicle_occupancy_invariant :
    (∀ (planets : List Planet) (ray : RayOracle) (selfId : ℕ) (ch : Chassis)
        (occ1 occ2 : Bool) (inp1 inp2 : Option VInput),
       (vehicleUpdate planets ray selfId ch occ1 inp1).susp =
         (vehicleUpdate planets ray selfId ch occ2 inp2).susp ∧
       (vehicleUpdate planets ray selfId ch occ1 inp1).upright =
         (vehicleUpdate planets ray selfId ch occ2 inp2).upright ∧
       (vehicleUpdate planets ray selfId ch occ1 inp1).up =
         (vehicleUpdate planets ray selfId ch occ2 inp2).up ∧
       (vehicleUpdate planets ray selfId ch occ1 inp1).gravity =
         (vehicleUpdate planets ray selfId ch occ2 inp2).gravity) ∧
    (∀ (planets : List Planet) (ray : RayOracle) (selfId : ℕ) (ch : Chassis)
        (occ : Bool) (inp : Option VInput),
       occ = false ∨ inp = none →
       (vehicleUpdate planets ray selfId ch occ inp).drive = [] ∧
       (vehicleUpdate planets ray selfId ch occ inp).turn = []) := by
  constructor
  · intro planets ray selfId ch occ1 occ2 inp1 inp2
    cases occ1 <;> cases occ2 <;> cases inp1 <;> cases inp2 <;>
      exact ⟨rfl, rfl, rfl, rfl⟩
  · intro planets ray selfId ch occ inp h
    rcases h with h | h
    · subst h; cases inp <;> exact ⟨rfl, rfl⟩
    · subst h; cases occ <;> exact ⟨rfl, rfl⟩

/-- Witness for C5 at a concrete unoccupied vehicle without input. -/
theorem vehicle_occupancy_invariant_witness :
    ((vehicleUpdate [] (fun _ _ => none) 0 ⟨0, 0, 0, ⟨0, 0, 0, 1⟩, 150⟩
        false none).susp =
      (vehicleUpdate [] (fun _ _ => none) 0 ⟨0, 0, 0, ⟨0, 0, 0, 1⟩, 150⟩
        true (some ⟨true, false, false, false⟩)).susp ∧
     (vehicleUpdate [] (fun _ _ => none) 0 ⟨0, 0, 0, ⟨0, 0, 0, 1⟩, 150⟩
        false none).upright =
      (vehicleUpdate [] (fun _ _ => none) 0 ⟨0, 0, 0, ⟨0, 0, 0, 1⟩, 150⟩
        true (some ⟨true, false, false, false⟩)).upright) ∧
    ((false = false ∨ (none : Option VInput) = none) ∧
     (vehicleUpdate [] (fun _ _ => none) 0 ⟨0, 0, 0, ⟨0, 0, 0, 1⟩, 150⟩
        false none).drive = [] ∧
     (vehicleUpdate [] (fun _ _ => none) 0 ⟨0, 0, 0, ⟨0, 0, 0, 1⟩, 150⟩
        false none).turn = []) := by
  have h1 := (vehicle_occupancy_invariant.1 [] (fun _ _ => none) 0
    ⟨0, 0, 0, ⟨0, 0, 0, 1⟩, 150⟩ false true none
    (some ⟨true, false, false, false⟩))
  have h2 := vehicle_occupancy_invariant.2 [] (fun _ _ => none) 0
    ⟨0, 0, 0, ⟨0, 0, 0, 1⟩, 150⟩ false none (Or.inl rfl)
  exact ⟨⟨h1.1, h1.2.1⟩, Or.inl rfl, h2.1, h2.2⟩

/-- C9: after a Grounded→Piloting→Grounded round trip (`drive` then
`dismount`), the character body occurs in the physics-world registry
exactly once (given it occurred exactly once before mounting), its position
is the vehicle position plus the seat offset `(2, 0, 0)` rotated by the
vehicle orientation, its velocity is exactly zero, and the
Piloting→Grounded transition always succeeds: any mounted state dismounts
to an unmounted, unoccupied one. -/
theorem mount_dismount_round_trip (pid : ℕ) (s : CoordState)
    (hcount : List.count pid s.bodies = 1) :
    List.count pid (dismount pid (drive pid s)).bodies = 1 ∧
    (dismount pid (drive pid s)).bodyPos =
      s.vehPos + applyQuaternion ⟨2, 0, 0⟩ s.vehQuat ∧
    (dismount pid (drive pid s)).bodyVel = 0 ∧
    (dismount pid (drive pid s)).mounted = false ∧
    (dismount pid (drive pid s)).vehOccupied = false ∧
    (∀ t : CoordState, t.mounted = true → (dismount pid t).mounted = false ∧
       (dismount pid t).vehOccupied = false) := by
  have herase : List.count pid (List.erase s.bodies pid) = 0 := by
    rw [List.count_erase_self, hcount]
  have hnotmem : pid ∉ List.erase s.bodies pid :=
    List.not_mem_of_count_eq_zero herase
  have hbodies : (dismount pid (drive pid s)).bodies =
      List.erase s.bodies pid ++ [pid] := by
    simp [dismount, drive, addBody, removeBody, hnotmem]
  refine ⟨?_, ?_, ?_, ?_, ?_, ?_⟩
  · rw [hbodies, List.count_append, herase, List.count_singleton_self]
  · simp [dismount, drive]
  · simp [dismount, drive]
  · simp [dismount, drive]
  · simp [dismount, drive]
  · intro t ht
    constructor <;> simp [dismount, ht]

/-- Witness for C9 at a concrete state whose registry holds the character
body exactly once. -/
theorem mount_dismount_round_trip_witness :
    List.count 4 ([4, 9] : List ℕ) = 1 ∧
    List.count 4 (dismount 4 (drive 4
      (⟨false, false, ⟨1, 2, 3⟩, ⟨0, 0, 0, 1⟩, 0, ⟨5, 5, 5⟩, [4, 9]⟩ :
        CoordState))).bodies = 1 ∧
    (dismount 4 (drive 4
      (⟨false, false, ⟨1, 2, 3⟩, ⟨0, 0, 0, 1⟩, 0, ⟨5, 5, 5⟩, [4, 9]⟩ :
        CoordState))).bodyPos =
      (⟨1, 2, 3⟩ : Vec3) + applyQuaternion ⟨2, 0, 0⟩ ⟨0, 0, 0, 1⟩ ∧
    (dismount 4 (drive 4
      (⟨false, false, ⟨1, 2, 3⟩, ⟨0, 0, 0, 1⟩, 0, ⟨5, 5, 5⟩, [4, 9]⟩ :
        CoordState))).bodyVel = 0 ∧
    (dismount 4 (drive 4
      (⟨false, false, ⟨1, 2, 3⟩, ⟨0, 0, 0, 1⟩, 0, ⟨5, 5, 5⟩, [4, 9]⟩ :
        CoordState))).mounted = false := by
  have h := mount_dismount_round_trip 4
    (⟨false, false, ⟨1, 2, 3⟩, ⟨0, 0, 0, 1⟩, 0, ⟨5, 5, 5⟩, [4, 9]⟩ :
      CoordState) (by decide)
  exact ⟨by decide, h.1, h.2.1, h.2.2.1, h.2.2.2.1⟩

theorem dot_projectForward_up (camDir up : Vec3) (hu : dot up up = 1) :
    dot (projectForward camDir up) up = 0 := by
  apply dot_threeNormalize_zero
  rw [dot_sub_left, dot_smul_left, hu, mul_one, sub_self]

theorem dot_moveIntent_up (inp : PInput) (f r up : Vec3)
    (hf : dot f up = 0) (hr : dot r up = 0) :
    dot (moveIntent inp f r) up = 0 := by
  simp only [moveIntent]
  split_ifs <;> simp [hf, hr]

theorem dot_target_up (inp : PInput) (f r up : Vec3) (speed : ℝ)
    (hf : dot f up = 0) (hr : dot r up = 0) :
    dot (if 0 < normSq (moveIntent inp f r)
         then speed • threeNormalize (moveIntent inp f r) else 0) up = 0 := by
  split_ifs with h
  · rw [dot_smul_left,
      dot_threeNormalize_zero _ _ (dot_moveIntent_up inp f r up hf hr),
      mul_zero]
  · exact dot_zero_left up

theorem newVel_dot (u vel target : Vec3) (hu : dot u u = 1)
    (ht : dot target u = 0) :
    dot (lerp (vel - dot vel u • u) target 0.2 + dot vel u • u) u
      = dot vel u := by
  simp only [dot_add_left, dot_lerp_left, dot_sub_left, dot_smul_left]
  rw [hu, ht]
  ring

/-- Unfolding of `playerMoveVel` into the decompose/blend/recombine shape of
the source; holds definitionally. -/
theorem playerMoveVel_eq (planets : List Planet) (camDir : Vec3)
    (inp : PInput) (isAlien : Bool) (pos vel : Vec3) :
    playerMoveVel planets camDir inp isAlien pos vel =
      lerp (vel - dot vel (computeUp planets pos) • computeUp planets pos)
        (if 0 < normSq (moveIntent inp (projectForward camDir
              (computeUp planets pos))
            (threeNormalize (cross (projectForward camDir
              (computeUp planets pos)) (computeUp planets pos))))
         then (if isAlien then alienSpeed else humanSpeed) •
           threeNormalize (moveIntent inp (projectForward camDir
              (computeUp planets pos))
            (threeNormalize (cross (projectForward camDir
              (computeUp planets pos)) (computeUp planets pos))))
         else 0) 0.2 +
      dot vel (computeUp planets pos) • computeUp planets pos := rfl

/-- Unfolding of `playerStep` into the jump-gated shape of the source;
holds definitionally. -/
theorem playerStep_eq (planets : List Planet) (camDir : Vec3) (inp : PInput)
    (isAlien : Bool) (probe : Vec3 → Vec3 → Bool) (pos vel : Vec3) :
    playerStep planets camDir inp isAlien probe pos vel =
      if inp.jump then
        if probe pos (pos - (1.5 : ℝ) • computeUp planets pos) then
          playerMoveVel planets camDir inp isAlien pos vel -
            dot vel (computeUp planets pos) • computeUp planets pos +
            (if isAlien then alienJump else humanJump) • computeUp planets pos
        else playerMoveVel planets camDir inp isAlien pos vel
      else playerMoveVel planets camDir inp isAlien pos vel := rfl

/-- C4: the velocity-control step of `PlayerController.update` preserves
the up-aligned velocity component exactly — only the tangential component
is blended toward the input target — and hence a step with no movement
input and zero initial tangential velocity leaves the tangential velocity
at exactly zero. -/
theorem velocity_update_preserves_up (planets : List Planet) (camDir : Vec3)
    (inp : PInput) (isAlien : Bool) (pos vel : Vec3)
    (hu : normSq (computeUp planets pos) = 1) :
    dot (playerMoveVel planets camDir inp isAlien pos vel)
      (computeUp planets pos) = dot vel (computeUp planets pos) ∧
    (inp.forward = false → inp.backward = false → inp.left = false →
     inp.right = false →
     vel - dot vel (computeUp planets pos) • computeUp planets pos = 0 →
     playerMoveVel planets camDir inp isAlien pos vel -
       dot (playerMoveVel planets camDir inp isAlien pos vel)
         (computeUp planets pos) • computeUp planets pos = 0) := by
  have hu' : dot (computeUp planets pos) (computeUp planets pos) = 1 := hu
  have hf : dot (projectForward camDir (computeUp planets pos))
      (computeUp planets pos) = 0 := dot_projectForward_up _ _ hu'
  have hr : dot (threeNormalize (cross (projectForward camDir
      (computeUp planets pos)) (computeUp planets pos)))
      (computeUp planets pos) = 0 :=
    dot_threeNormalize_zero _ _ (dot_cross_right _ _)
  have hpres : dot (playerMoveVel planets camDir inp isAlien pos vel)
      (computeUp planets pos) = dot vel (computeUp planets pos) := by
    rw [playerMoveVel_eq]
    exact newVel_dot _ _ _ hu' (dot_target_up inp _ _ _ _ hf hr)
  refine ⟨hpres, ?_⟩
  intro h1 h2 h3 h4 htan
  have hmi : moveIntent inp (projectForward camDir (computeUp planets pos))
      (threeNormalize (cross (projectForward camDir (computeUp planets pos))
        (computeUp planets pos))) = 0 := by
    simp [moveIntent, h1, h2, h3, h4]
  have hns : ¬ 0 < normSq (moveIntent inp
      (projectForward camDir (computeUp planets pos))
      (threeNormalize (cross (projectForward camDir (computeUp planets pos))
        (computeUp planets pos)))) := by
    rw [hmi]
    simp [normSq, dot]
  have hnv : playerMoveVel planets camDir inp isAlien pos vel =
      dot vel (computeUp planets pos) • computeUp planets pos := by
    rw [playerMoveVel_eq, if_neg hns, htan, lerp_zero_zero, zero_add_vec]
  rw [hnv, dot_smul_left, hu', mul_one]
  exact (sub_eq_zero_iff_vec _ _).2 rfl

/-- Witness for C4: empty attractor set (canonical vertical up), no input,
and a purely vertical initial velocity. -/
theorem velocity_update_preserves_up_witness :
    normSq (computeUp [] ⟨0, 0, 0⟩) = 1 ∧
    dot (playerMoveVel [] ⟨0, 0, -1⟩ ⟨false, false, false, false, false⟩
        false ⟨0, 0, 0⟩ ⟨0, 3, 0⟩) (computeUp [] ⟨0, 0, 0⟩) =
      dot (⟨0, 3, 0⟩ : Vec3) (computeUp [] ⟨0, 0, 0⟩) ∧
    (⟨0, 3, 0⟩ : Vec3) - dot ⟨0, 3, 0⟩ (computeUp [] ⟨0, 0, 0⟩) •
      computeUp [] ⟨0, 0, 0⟩ = 0 ∧
    playerMoveVel [] ⟨0, 0, -1⟩ ⟨false, false, false, false, false⟩
        false ⟨0, 0, 0⟩ ⟨0, 3, 0⟩ -
      dot (playerMoveVel [] ⟨0, 0, -1⟩ ⟨false, false, false, false, false⟩
        false ⟨0, 0, 0⟩ ⟨0, 3, 0⟩) (computeUp [] ⟨0, 0, 0⟩) •
      computeUp [] ⟨0, 0, 0⟩ = 0 := by
  have hup : computeUp [] ⟨0, 0, 0⟩ = ⟨0, 1, 0⟩ := rfl
  have hu : normSq (computeUp [] ⟨0, 0, 0⟩) = 1 := by
    rw [hup]; simp [normSq, dot]
  have htan : (⟨0, 3, 0⟩ : Vec3) - dot ⟨0, 3, 0⟩ (computeUp [] ⟨0, 0, 0⟩) •
      computeUp [] ⟨0, 0, 0⟩ = 0 := by
    rw [hup]; ext <;> simp [dot]
  have h := velocity_update_preserves_up [] ⟨0, 0, -1⟩
    ⟨false, false, false, false, false⟩ false ⟨0, 0, 0⟩ ⟨0, 3, 0⟩ hu
  exact ⟨hu, h.1, htan, h.2 rfl rfl rfl rfl htan⟩

/-- C2: with the jump key held, `PlayerController.update` jumps exactly
when the ground probe (the engine ray from the body position 1.5 units
along `-up`) reports a hit: on a hit the up-aligned velocity component
captured before the blend is replaced so that the post-step velocity
satisfies `velocity . up = jumpSpeed` with the speed selected by the
disguise state (`alienJump` or `humanJump`); on a miss no jump happens and
the up-aligned component is unchanged. -/
theorem jump_ground_gating (planets : List Planet) (camDir : Vec3)
    (inp : PInput) (isAlien : Bool) (probe : Vec3 → Vec3 → Bool)
    (pos vel : Vec3)
    (hu : normSq (computeUp planets pos) = 1)
    (hj : inp.jump = true) :
    (probe pos (pos - (1.5 : ℝ) • computeUp planets pos) = true →
      dot (playerStep planets camDir inp isAlien probe pos vel)
        (computeUp planets pos) =
        (if isAlien then alienJump else humanJump)) ∧
    (probe pos (pos - (1.5 : ℝ) • computeUp planets pos) = false →
      playerStep planets camDir inp isAlien probe pos vel =
        playerMoveVel planets camDir inp isAlien pos vel ∧
      dot (playerStep planets camDir inp isAlien probe pos vel)
        (computeUp planets pos) = dot vel (computeUp planets pos)) := by
  have hu' : dot (computeUp planets pos) (computeUp planets pos) = 1 := hu
  have hpres := (velocity_update_preserves_up planets camDir inp isAlien
    pos vel hu).1
  constructor
  · intro hp
    have hstep : playerStep planets camDir inp isAlien probe pos vel =
        playerMoveVel planets camDir inp isAlien pos vel -
          dot vel (computeUp planets pos) • computeUp planets pos +
          (if isAlien then alienJump else humanJump) •
            computeUp planets pos := by
      rw [playerStep_eq, hj, hp]
      simp
    rw [hstep, dot_add_left, dot_sub_left, dot_smul_left, dot_smul_left,
      hu', hpres]
    ring
  · intro hp
    have hstep : playerStep planets camDir inp isAlien probe pos vel =
        playerMoveVel planets camDir inp isAlien pos vel := by
      rw [playerStep_eq, hj, hp]
      simp
    exact ⟨hstep, by rw [hstep]; exact hpres⟩

/-- Witness for C2: empty attractor set (canonical vertical up), jump key
held, probe reporting ground, human form. -/
theorem jump_ground_gating_witness :
    normSq (computeUp [] ⟨0, 0, 0⟩) = 1 ∧
    (⟨false, false, false, false, true⟩ : PInput).jump = true ∧
    (fun (_ _ : Vec3) => true) ⟨0, 0, 0⟩
      ((⟨0, 0, 0⟩ : Vec3) - (1.5 : ℝ) • computeUp [] ⟨0, 0, 0⟩) = true ∧
    dot (playerStep [] ⟨0, 0, -1⟩ ⟨false, false, false, false, true⟩ false
        (fun _ _ => true) ⟨0, 0, 0⟩ ⟨0, 0, 0⟩) (computeUp [] ⟨0, 0, 0⟩) =
      humanJump := by
  have hup : computeUp [] ⟨0, 0, 0⟩ = ⟨0, 1, 0⟩ := rfl
  have hu : normSq (computeUp [] ⟨0, 0, 0⟩) = 1 := by
    rw [hup]; simp [normSq, dot]
  have h := (jump_ground_gating [] ⟨0, 0, -1⟩
    ⟨false, false, false, false, true⟩ false (fun _ _ => true)
    ⟨0, 0, 0⟩ ⟨0, 0, 0⟩ hu rfl).1 rfl
  exact ⟨hu, rfl, rfl, h⟩
